import Mathlib

/-!
# Verification of the GMT147SPI-ST7789 safe-zone layout logic

Shallow embedding of the self-contained computation in
`src/GMT147SPI-ST7789.cpp`:

* the character-grid computation of `testCharacterCapacity` (lines 129-138):
  `actualCharWidth = 6 * textSize`, `actualCharHeight = 8 * textSize`,
  `safeWidth = lcd_width - SAFE_MARGIN * 2`, `safeHeight = lcd_height - SAFE_MARGIN * 2`,
  `charsPerRow = safeWidth / actualCharWidth`, `numRows = safeHeight / actualCharHeight`,
  generalised over the display geometry, margin and text size as the spec does.
  C `int` division truncates toward zero, which is `Int.tdiv`.

* the row-label construction of `testCharacterCapacity` (lines 167-176):
  a 64-byte stack buffer, `snprintf(buffer, 64, "R%02d:", row)`, a fill loop
  guarded by `i < remaining && written + i < 63`, and the terminator write
  `buffer[charsPerRow] = 0`.  The buffer is modelled byte-for-byte; a cell
  holds `none` while uninitialized, out-of-bounds accesses make the whole
  computation return `none` (undefined behavior in C).

* the main-loop test selector (lines 510-557): `testNum` starts at 0 and is
  updated by `testNum = (testNum + 1) % 4` (stored into a `uint8_t`), and a
  `switch` dispatches on it to the four test routines.
-/

/-! ## Grid computation (lines 124-138 of the source) -/

/-- `int actualCharWidth = charWidth * textSize;` with `charWidth = 6`. -/
def actualCharWidth (textSize : Int) : Int := 6 * textSize

/-- `int actualCharHeight = charHeight * textSize;` with `charHeight = 8`. -/
def actualCharHeight (textSize : Int) : Int := 8 * textSize

/-- `int safeWidth = lcd_width - (SAFE_MARGIN * 2);`, generalised over the
display width and the margin. -/
def safeWidthOf (widthPx margin : Int) : Int := widthPx - margin * 2

/-- `int safeHeight = lcd_height - (SAFE_MARGIN * 2);`, generalised. -/
def safeHeightOf (heightPx margin : Int) : Int := heightPx - margin * 2

/-- The grid result: `charsPerRow` and `numRows` of the source, the
`SafeZoneGrid{columns, rows}` entity of the spec. -/
structure SafeZoneGrid where
  columns : Int
  rows : Int
deriving DecidableEq, Repr

/-- `charsPerRow = safeWidth / actualCharWidth; numRows = safeHeight / actualCharHeight;`
(lines 137-138).  C integer division truncates toward zero, hence `Int.tdiv`. -/
def computeGrid (widthPx heightPx margin textSize : Int) : SafeZoneGrid :=
  { columns := Int.tdiv (safeWidthOf widthPx margin) (actualCharWidth textSize),
    rows := Int.tdiv (safeHeightOf heightPx margin) (actualCharHeight textSize) }

/-! ## Row-label construction (lines 167-176 of the source) -/

/-- One 64-byte stack buffer `char buffer[64]`, indexed by `Nat`; a cell is
`none` while uninitialized. -/
def Buf : Type := Nat → Option Char

/-- Unchecked store of one byte. -/
def bufSet (b : Buf) (i : Nat) (c : Char) : Buf :=
  fun j => if j = i then some c else b j

/-- Bounds-checked store: writing outside the 64-byte buffer is undefined
behavior, modelled as `none`. -/
def bufWrite (b : Buf) (i : Nat) (c : Char) : Option Buf :=
  if i < 64 then some (bufSet b i c) else none

/-- Store a run of bytes at consecutive indices starting at `start`. -/
def writeChars : Buf → Nat → List Char → Buf
  | b, _, [] => b
  | b, start, c :: cs => writeChars (bufSet b start c) (start + 1) cs

/-- `snprintf(buffer, 64, ...)` with formatted output `s`: stores at most 63
bytes of `s` followed by a terminating null, and returns the length the
formatted output would have had without truncation. -/
def snprintfBuf (b : Buf) (s : List Char) : Buf × Nat :=
  (bufSet (writeChars b 0 (s.take 63)) (s.take 63).length (Char.ofNat 0), s.length)

/-- The decimal digit character for `d < 10`. -/
def digitChar (d : Nat) : Char := Char.ofNat (48 + d)

/-- Decimal digits of a natural number, most significant first (fuel-indexed;
`natDigits` supplies enough fuel). -/
def natDigitsAux : Nat → Nat → List Char
  | 0, _ => []
  | fuel + 1, n =>
    if n < 10 then [digitChar n]
    else natDigitsAux fuel (n / 10) ++ [digitChar (n % 10)]

/-- Decimal digits of a natural number, most significant first. -/
def natDigits (n : Nat) : List Char := natDigitsAux (n + 1) n

/-- The formatted output of `"R%02d:"` applied to `rowIndex`: the letter R,
the decimal digits zero-padded to width 2, and a colon. -/
def prefixChars (rowIndex : Nat) : List Char :=
  'R' :: ((if (natDigits rowIndex).length < 2 then
            List.replicate (2 - (natDigits rowIndex).length) '0' ++ natDigits rowIndex
          else natDigits rowIndex) ++ [':'])

/-- `'A' + (i % 26)` (line 174). -/
def fillerChar (i : Nat) : Char := Char.ofNat (65 + i % 26)

/-- The filler characters produced by the first `m` loop iterations. -/
def fillerList (m : Nat) : List Char := (List.range m).map fillerChar

/-- The fill loop (lines 172-175):
`for (i = 0; i < remaining && (written + i) < 63; i++) buffer[written+i] = 'A' + (i % 26);`.
`remaining` is the C `int` value `charsPerRow - written`, which may be
negative.  The guard `written + i < 63` bounds the iteration count by 63, so
fuel 63 (supplied by `generateRowLabel`) makes the recursion total without
cutting the loop short. -/
def fillLoop : Nat → Nat → Int → Buf → Nat → Buf
  | 0, _, _, b, _ => b
  | fuel + 1, written, remaining, b, i =>
    if (i : Int) < remaining ∧ written + i < 63 then
      fillLoop fuel written remaining (bufSet b (written + i) (fillerChar i)) (i + 1)
    else b

/-- Read the buffer as a C string from index `j`: the bytes up to the first
null.  Reading an uninitialized byte, or running past the end of the buffer
without a terminator (fuel exhausted), is undefined behavior: `none`. -/
def readCStr : Buf → Nat → Nat → Option (List Char)
  | _, 0, _ => none
  | b, fuel + 1, j =>
    Option.bind (b j) (fun c =>
      if c = Char.ofNat 0 then some []
      else Option.map (fun cs => c :: cs) (readCStr b fuel (j + 1)))

/-- The row-label construction (lines 167-176), generalised over `row`
(`rowIndex`) and `charsPerRow` (`columns`) as the spec does:

```
char buffer[64];
int written = snprintf(buffer, sizeof(buffer), "R%02d:", row);
int remaining = charsPerRow - written;
for (int i = 0; i < remaining && (written + i) < (int)sizeof(buffer) - 1; i++)
    buffer[written + i] = 'A' + (i % 26);
buffer[charsPerRow] = 0;
```

followed by reading `buffer` as the C string handed to `GFX_printf("%s", ...)`.
Returns `none` when the construction hits undefined behavior (out-of-bounds
write or read of an indeterminate byte). -/
def generateRowLabel (rowIndex columns : Nat) : Option (List Char) :=
  let sp := snprintfBuf (fun _ => none) (prefixChars rowIndex)
  let filled := fillLoop 63 sp.2 ((columns : Int) - (sp.2 : Int)) sp.1 0
  Option.bind (bufWrite filled columns (Char.ofNat 0)) (fun b => readCStr b 64 0)

/-! ## Main-loop test selector (lines 510-557 of the source) -/

/-- The four bodies of the `switch (testNum)` statement in `main`. -/
inductive TestAction where
  | safeZone : TestAction
  | practicalLayout : TestAction
  | characterCapacity : Nat → TestAction
  | simpleDemo : TestAction
deriving DecidableEq, Repr

/-- The `switch (testNum)` dispatch: cases 0-3 run a test, any other value
matches no case (the switch has no default) and the iteration runs nothing. -/
def dispatch : Nat → Option TestAction
  | 0 => some TestAction.safeZone
  | 1 => some TestAction.practicalLayout
  | 2 => some (TestAction.characterCapacity 2)
  | 3 => some TestAction.simpleDemo
  | _ => none

/-- `testNum = (testNum + 1) % 4;` — the `int` result is stored back into the
`uint8_t` variable `testNum`, a conversion modulo 256. -/
def stepTestNum (t : Nat) : Nat := (t + 1) % 4 % 256

/-- Value of `testNum` at the start of loop iteration `n`
(`uint8_t testNum = 0;` before the loop). -/
def testNumAt : Nat → Nat
  | 0 => 0
  | n + 1 => stepTestNum (testNumAt n)

/-! ## Helper lemmas -/

/-- Division bounds for C truncating division with positive numerator and
denominator. -/
theorem tdiv_bounds (n d : Int) (hn : 0 < n) (hd : 0 < d) :
    Int.tdiv n d * d ≤ n ∧ n < (Int.tdiv n d + 1) * d := by
  rw [Int.tdiv_eq_ediv hn.le hd.le]
  exact ⟨Int.ediv_mul_le n hd.ne', Int.lt_ediv_add_one_mul_self n hd⟩

/-- C truncating division of a non-positive numerator by a positive
denominator is non-positive, and it is zero as soon as the numerator is
strictly above the negated denominator. -/
theorem tdiv_nonpos_cases (n d : Int) (hn : n ≤ 0) (hd : 0 < d) :
    Int.tdiv n d ≤ 0 ∧ (-d < n → Int.tdiv n d = 0) := by
  have hneg : Int.tdiv n d = -Int.tdiv (-n) d := by
    rw [← Int.neg_tdiv, neg_neg]
  constructor
  · rw [hneg]
    have h0 : 0 ≤ Int.tdiv (-n) d := Int.tdiv_nonneg (by linarith) hd.le
    linarith
  · intro hlt
    rw [hneg, Int.tdiv_eq_ediv (by linarith) hd.le,
      Int.ediv_eq_zero_of_lt (by linarith) (by linarith), neg_zero]

theorem testNumAt_eq_mod (n : Nat) : testNumAt n = n % 4 := by
  induction n with
  | zero => rfl
  | succ k ih =>
    show stepTestNum (testNumAt k) = (k + 1) % 4
    rw [ih]
    unfold stepTestNum
    omega

/-! ## Claims about the grid computation -/

/-- Claim C1: for widthPx > 0, heightPx > 0, margin ≥ 0, scale ≥ 1, whenever
widthPx - 2*margin > 0 the computed columns value satisfies
columns * (6*scale) ≤ widthPx - 2*margin < (columns + 1) * (6*scale), and
symmetrically the rows value brackets heightPx - 2*margin with cell height
8*scale. -/
theorem c1_grid_division_bounds (widthPx heightPx margin scale : Int)
    (hw : 0 < widthPx) (hh : 0 < heightPx) (hm : 0 ≤ margin) (hs : 1 ≤ scale) :
    (0 < widthPx - 2 * margin →
      (computeGrid widthPx heightPx margin scale).columns * (6 * scale) ≤ widthPx - 2 * margin ∧
      widthPx - 2 * margin < ((computeGrid widthPx heightPx margin scale).columns + 1) * (6 * scale)) ∧
    (0 < heightPx - 2 * margin →
      (computeGrid widthPx heightPx margin scale).rows * (8 * scale) ≤ heightPx - 2 * margin ∧
      heightPx - 2 * margin < ((computeGrid widthPx heightPx margin scale).rows + 1) * (8 * scale)) := by
  have hc : (computeGrid widthPx heightPx margin scale).columns
      = Int.tdiv (widthPx - margin * 2) (6 * scale) := rfl
  have hr : (computeGrid widthPx heightPx margin scale).rows
      = Int.tdiv (heightPx - margin * 2) (8 * scale) := rfl
  rw [hc, hr]
  constructor
  · intro h
    have hb := tdiv_bounds (widthPx - margin * 2) (6 * scale) (by linarith) (by linarith)
    exact ⟨by linarith [hb.1], by linarith [hb.2]⟩
  · intro h
    have hb := tdiv_bounds (heightPx - margin * 2) (8 * scale) (by linarith) (by linarith)
    exact ⟨by linarith [hb.1], by linarith [hb.2]⟩

/-- Witness for C1 at the concrete display geometry 172x320, margin 10,
scale 2. -/
theorem c1_grid_division_bounds_witness :
    ((0 : Int) < 172 ∧ (0 : Int) < 320 ∧ (0 : Int) ≤ 10 ∧ (1 : Int) ≤ 2) ∧
    ((0 < (172 : Int) - 2 * 10 →
      (computeGrid 172 320 10 2).columns * (6 * 2) ≤ (172 : Int) - 2 * 10 ∧
      (172 : Int) - 2 * 10 < ((computeGrid 172 320 10 2).columns + 1) * (6 * 2)) ∧
    (0 < (320 : Int) - 2 * 10 →
      (computeGrid 172 320 10 2).rows * (8 * 2) ≤ (320 : Int) - 2 * 10 ∧
      (320 : Int) - 2 * 10 < ((computeGrid 172 320 10 2).rows + 1) * (8 * 2))) :=
  ⟨by norm_num,
   c1_grid_division_bounds 172 320 10 2 (by norm_num) (by norm_num) (by norm_num) (by norm_num)⟩

/-- Counterexample to claim C2: at geometry (172,320), margin 98, scale 2 the
safe width 172 - 2*98 = -24 is non-positive, yet the computed columns value is
-2, not 0 — the code's truncating division is not clamped at 0. -/
theorem c2_clamp_counterexample :
    safeWidthOf 172 98 ≤ 0 ∧
    (computeGrid 172 320 98 2).columns = -2 ∧
    ¬((computeGrid 172 320 98 2).columns = 0) := by decide

/-- Claim C2 as amended: for scale ≥ 1, when widthPx - 2*margin ≤ 0 the
computed columns value is ≤ 0 (not clamped to 0), and it equals 0 exactly on
the shallow degenerate range -(6*scale) < widthPx - 2*margin ≤ 0, which covers
the concrete scenario (172,320), margin 90 (safe width -8); symmetrically for
rows. -/
theorem c2_degenerate_not_clamped (widthPx heightPx margin scale : Int) (hs : 1 ≤ scale) :
    (widthPx - 2 * margin ≤ 0 →
      (computeGrid widthPx heightPx margin scale).columns ≤ 0 ∧
      (-(6 * scale) < widthPx - 2 * margin →
        (computeGrid widthPx heightPx margin scale).columns = 0)) ∧
    (heightPx - 2 * margin ≤ 0 →
      (computeGrid widthPx heightPx margin scale).rows ≤ 0 ∧
      (-(8 * scale) < heightPx - 2 * margin →
        (computeGrid widthPx heightPx margin scale).rows = 0)) := by
  have hc : (computeGrid widthPx heightPx margin scale).columns
      = Int.tdiv (widthPx - margin * 2) (6 * scale) := rfl
  have hr : (computeGrid widthPx heightPx margin scale).rows
      = Int.tdiv (heightPx - margin * 2) (8 * scale) := rfl
  rw [hc, hr]
  constructor
  · intro h
    have hb := tdiv_nonpos_cases (widthPx - margin * 2) (6 * scale) (by linarith) (by linarith)
    exact ⟨hb.1, fun hlt => hb.2 (by linarith)⟩
  · intro h
    have hb := tdiv_nonpos_cases (heightPx - margin * 2) (8 * scale) (by linarith) (by linarith)
    exact ⟨hb.1, fun hlt => hb.2 (by linarith)⟩

/-- Witness for the amended C2 at the spec's concrete scenario: geometry
(172,320), margin 90, scale 2, where the safe width is -8 and columns is 0. -/
theorem c2_degenerate_not_clamped_witness :
    ((1 : Int) ≤ 2) ∧
    (((172 : Int) - 2 * 90 ≤ 0 →
      (computeGrid 172 320 90 2).columns ≤ 0 ∧
      (-(6 * 2) < (172 : Int) - 2 * 90 → (computeGrid 172 320 90 2).columns = 0)) ∧
    ((320 : Int) - 2 * 90 ≤ 0 →
      (computeGrid 172 320 90 2).rows ≤ 0 ∧
      (-(8 * 2) < (320 : Int) - 2 * 90 → (computeGrid 172 320 90 2).rows = 0))) :=
  ⟨by norm_num, c2_degenerate_not_clamped 172 320 90 2 (by norm_num)⟩

/-- Claim C6: the concrete scenario geometry (172,320), margin 10, scale 2
yields safeWidth 152, safeHeight 300, cell 12x16, columns 12, rows 18 and
total capacity 216. -/
theorem c6_concrete_grid :
    safeWidthOf 172 10 = 152 ∧ safeHeightOf 320 10 = 300 ∧
    actualCharWidth 2 = 12 ∧ actualCharHeight 2 = 16 ∧
    (computeGrid 172 320 10 2).columns = 12 ∧
    (computeGrid 172 320 10 2).rows = 18 ∧
    (computeGrid 172 320 10 2).columns * (computeGrid 172 320 10 2).rows = 216 := by decide

/-- Claim C8: the grid computation is deterministic and referentially
transparent — two invocations on identical inputs return identical
SafeZoneGrid results, with the same columns, rows and total capacity (the
embedding is a pure function of its arguments, reading no other state). -/
theorem c8_deterministic (w1 h1 m1 s1 w2 h2 m2 s2 : Int)
    (hw : w1 = w2) (hh : h1 = h2) (hm : m1 = m2) (hs : s1 = s2) :
    computeGrid w1 h1 m1 s1 = computeGrid w2 h2 m2 s2 ∧
    (computeGrid w1 h1 m1 s1).columns = (computeGrid w2 h2 m2 s2).columns ∧
    (computeGrid w1 h1 m1 s1).rows = (computeGrid w2 h2 m2 s2).rows ∧
    (computeGrid w1 h1 m1 s1).columns * (computeGrid w1 h1 m1 s1).rows =
      (computeGrid w2 h2 m2 s2).columns * (computeGrid w2 h2 m2 s2).rows := by
  subst hw; subst hh; subst hm; subst hs
  exact ⟨rfl, rfl, rfl, rfl⟩

/-- Witness for C8: two invocations at the concrete input (172,320,10,2). -/
theorem c8_deterministic_witness :
    ((172 : Int) = 172 ∧ (320 : Int) = 320 ∧ (10 : Int) = 10 ∧ (2 : Int) = 2) ∧
    (computeGrid 172 320 10 2 = computeGrid 172 320 10 2 ∧
    (computeGrid 172 320 10 2).columns = (computeGrid 172 320 10 2).columns ∧
    (computeGrid 172 320 10 2).rows = (computeGrid 172 320 10 2).rows ∧
    (computeGrid 172 320 10 2).columns * (computeGrid 172 320 10 2).rows =
      (computeGrid 172 320 10 2).columns * (computeGrid 172 320 10 2).rows) :=
  ⟨⟨rfl, rfl, rfl, rfl⟩, c8_deterministic 172 320 10 2 172 320 10 2 rfl rfl rfl rfl⟩

/-- Claim C10: the test selector starts at 0 and is advanced by
(testNum + 1) % 4, so at every iteration it equals n % 4, lies in {0,1,2,3},
and the switch dispatches it to the four test routines cyclically in the fixed
order safe zone, practical layout, character capacity at size 2, simple demo —
no iteration falls outside the four cases. -/
theorem c10_selector_cycle (n : Nat) :
    testNumAt n = n % 4 ∧ testNumAt n < 4 ∧
    (dispatch (testNumAt n)).isSome = true ∧
    dispatch (testNumAt n) =
      some (if n % 4 = 0 then TestAction.safeZone
            else if n % 4 = 1 then TestAction.practicalLayout
            else if n % 4 = 2 then TestAction.characterCapacity 2
            else TestAction.simpleDemo) := by
  have h := testNumAt_eq_mod n
  have h4 : n % 4 = 0 ∨ n % 4 = 1 ∨ n % 4 = 2 ∨ n % 4 = 3 := by omega
  rcases h4 with h4 | h4 | h4 | h4 <;> rw [h, h4] <;>
    exact ⟨rfl, by decide, by decide, by decide⟩

/-! ## Helper lemmas about the buffer model -/

/-- Pointwise effect of storing a run of bytes. -/
theorem writeChars_apply (l : List Char) : ∀ (b : Buf) (start j : Nat),
    writeChars b start l j =
      if start ≤ j ∧ j < start + l.length then l[j - start]? else b j := by
  induction l with
  | nil =>
    intro b start j
    simp only [writeChars, List.length_nil, Nat.add_zero]
    rw [if_neg (by omega)]
  | cons c cs ih =>
    intro b start j
    show writeChars (bufSet b start c) (start + 1) cs j = _
    rw [ih]
    by_cases h1 : start + 1 ≤ j ∧ j < start + 1 + cs.length
    · rw [if_pos h1, if_pos (by simp only [List.length_cons]; omega)]
      have hjs : j - start = (j - (start + 1)) + 1 := by omega
      rw [hjs, List.getElem?_cons_succ]
    · rw [if_neg h1]
      by_cases h2 : start ≤ j ∧ j < start + (c :: cs).length
      · simp only [List.length_cons] at h1 h2
        have hj : j = start := by omega
        subst hj
        rw [if_pos (by simp only [List.length_cons]; omega)]
        simp [bufSet]
      · rw [if_neg h2]
        have hne : j ≠ start := by
          simp only [List.length_cons] at h1 h2
          omega
        simp [bufSet, hne]

/-- Pointwise effect of the fill loop: started at iteration `i` with enough
fuel, it stores filler bytes at exactly the indices from `written + i` up to
(excluding) `written + min remaining.toNat (63 - written)`, the point where
the guard `i < remaining && written + i < 63` first fails. -/
theorem fillLoop_apply (written : Nat) (remaining : Int) :
    ∀ (fuel i : Nat) (b : Buf) (j : Nat),
    min remaining.toNat (63 - written) ≤ i + fuel →
    fillLoop fuel written remaining b i j =
      if written + i ≤ j ∧ j < written + min remaining.toNat (63 - written)
      then some (fillerChar (j - written)) else b j := by
  intro fuel
  induction fuel with
  | zero =>
    intro i b j hfu
    simp only [fillLoop]
    rw [if_neg (by omega)]
  | succ fuel ih =>
    intro i b j hfu
    by_cases hg : (i : Int) < remaining ∧ written + i < 63
    · have hi : i < min remaining.toNat (63 - written) := by omega
      simp only [fillLoop]
      rw [if_pos hg, ih (i + 1) (bufSet b (written + i) (fillerChar i)) j (by omega)]
      by_cases hj : written + i ≤ j ∧ j < written + min remaining.toNat (63 - written)
      · rw [if_pos hj]
        by_cases hj2 : written + (i + 1) ≤ j ∧
            j < written + min remaining.toNat (63 - written)
        · rw [if_pos hj2]
        · rw [if_neg hj2]
          have hje : j = written + i := by omega
          subst hje
          simp [bufSet]
      · rw [if_neg hj, if_neg (show ¬(written + (i + 1) ≤ j ∧
            j < written + min remaining.toNat (63 - written)) from by omega)]
        have hne : j ≠ written + i := by omega
        simp [bufSet, hne]
    · simp only [fillLoop]
      rw [if_neg hg, if_neg (by omega)]

/-- Reading back a C string: if the bytes from `start` on hold the non-null
characters of `l` followed by a terminating null, the read returns `l`. -/
theorem readCStr_eq : ∀ (l : List Char) (b : Buf) (start fuel : Nat),
    (∀ k, k < l.length → b (start + k) = l[k]?) →
    (∀ c ∈ l, c ≠ Char.ofNat 0) →
    b (start + l.length) = some (Char.ofNat 0) →
    l.length < fuel →
    readCStr b fuel start = some l := by
  intro l
  induction l with
  | nil =>
    intro b start fuel h1 h2 h3 h4
    cases fuel with
    | zero => exact absurd h4 (by omega)
    | succ f =>
      simp only [readCStr]
      have hb : b start = some (Char.ofNat 0) := by simpa using h3
      rw [hb]
      simp
  | cons c cs ih =>
    intro b start fuel h1 h2 h3 h4
    cases fuel with
    | zero => exact absurd h4 (by omega)
    | succ f =>
      simp only [readCStr]
      have hb : b start = some c := by
        have h0 := h1 0 (by simp)
        simpa using h0
      rw [hb]
      have hc : c ≠ Char.ofNat 0 := h2 c (List.mem_cons_self c cs)
      have hrec : readCStr b f (start + 1) = some cs := by
        apply ih
        · intro k hk
          have hk1 := h1 (k + 1) (by simp only [List.length_cons]; omega)
          rw [show start + 1 + k = start + (k + 1) from by omega]
          rw [hk1, List.getElem?_cons_succ]
        · intro x hx
          exact h2 x (List.mem_cons_of_mem c hx)
        · rw [show start + 1 + cs.length = start + (c :: cs).length from by
            simp only [List.length_cons]; omega]
          exact h3
        · simp only [List.length_cons] at h4
          omega
      simp [hc, hrec]

/-- Every character produced by `natDigitsAux` is a decimal digit. -/
theorem natDigitsAux_mem : ∀ (fuel n : Nat), ∀ c ∈ natDigitsAux fuel n,
    ∃ d, d < 10 ∧ c = digitChar d := by
  intro fuel
  induction fuel with
  | zero => intro n c hc; simp [natDigitsAux] at hc
  | succ f ih =>
    intro n c hc
    simp only [natDigitsAux] at hc
    by_cases h10 : n < 10
    · rw [if_pos h10] at hc
      simp only [List.mem_singleton] at hc
      exact ⟨n, h10, hc⟩
    · rw [if_neg h10] at hc
      rcases List.mem_append.mp hc with h | h
      · exact ih (n / 10) c h
      · simp only [List.mem_singleton] at h
        exact ⟨n % 10, Nat.mod_lt _ (by norm_num), h⟩

/-- A decimal digit character is not the null character. -/
theorem digitChar_ne_null (d : Nat) (hd : d < 10) : digitChar d ≠ Char.ofNat 0 := by
  interval_cases d <;> decide

/-- The filler characters are capital letters, never null. -/
theorem fillerChar_ne_null (i : Nat) : fillerChar i ≠ Char.ofNat 0 := by
  unfold fillerChar
  have h : i % 26 < 26 := Nat.mod_lt _ (by norm_num)
  set r := i % 26 with hr
  interval_cases r <;> decide

/-- `natDigits` never returns the empty list. -/
theorem natDigits_ne_nil (n : Nat) : natDigits n ≠ [] := by
  unfold natDigits
  simp only [natDigitsAux]
  split <;> simp

/-- No character of the formatted prefix is the null character. -/
theorem prefixChars_ne_null (rowIndex : Nat) :
    ∀ c ∈ prefixChars rowIndex, c ≠ Char.ofNat 0 := by
  intro c hc
  simp only [prefixChars, List.mem_cons, List.mem_append] at hc
  rcases hc with hc | hc
  · subst hc; decide
  rcases hc with hc | hc
  · by_cases hlen : (natDigits rowIndex).length < 2
    · rw [if_pos hlen] at hc
      rcases List.mem_append.mp hc with h | h
      · have := List.eq_of_mem_replicate h
        subst this; decide
      · obtain ⟨d, hd, rfl⟩ := natDigitsAux_mem _ _ c h
        exact digitChar_ne_null d hd
    · rw [if_neg hlen] at hc
      obtain ⟨d, hd, rfl⟩ := natDigitsAux_mem _ _ c hc
      exact digitChar_ne_null d hd
  · rcases hc with hc | hc
    · subst hc; decide
    · simp at hc

/-- The formatted prefix is at least 4 characters long (R, two or more
digits after padding, and the colon). -/
theorem prefixChars_length_ge (rowIndex : Nat) : 4 ≤ (prefixChars rowIndex).length := by
  have hne := natDigits_ne_nil rowIndex
  have hlen : 1 ≤ (natDigits rowIndex).length := by
    cases h : natDigits rowIndex with
    | nil => exact absurd h hne
    | cons a l => simp
  simp only [prefixChars, List.length_cons, List.length_append, List.length_singleton]
  by_cases h2 : (natDigits rowIndex).length < 2
  · rw [if_pos h2]
    simp only [List.length_append, List.length_replicate]
    omega
  · rw [if_neg h2]
    omega

/-- For a row index up to 99, the formatted prefix of `"R%02d:"` is exactly
the four characters R, tens digit, units digit, colon. -/
theorem prefixChars_eq_of_le_99 (rowIndex : Nat) (h99 : rowIndex ≤ 99) :
    prefixChars rowIndex =
      ['R', digitChar (rowIndex / 10), digitChar (rowIndex % 10), ':'] := by
  by_cases h10 : rowIndex < 10
  · have hds : natDigits rowIndex = [digitChar rowIndex] := by
      unfold natDigits
      simp only [natDigitsAux]
      rw [if_pos h10]
    have hdiv : rowIndex / 10 = 0 := Nat.div_eq_of_lt h10
    have hmod : rowIndex % 10 = rowIndex := Nat.mod_eq_of_lt h10
    have h0 : List.replicate (2 - 1) '0' = [digitChar 0] := by decide
    simp only [prefixChars, hds, List.length_singleton, if_pos (by norm_num : 1 < 2),
      hdiv, hmod, h0]
    rfl
  · obtain ⟨m, rfl⟩ : ∃ m, rowIndex = m + 1 := ⟨rowIndex - 1, by omega⟩
    have hds : natDigits (m + 1) =
        [digitChar ((m + 1) / 10), digitChar ((m + 1) % 10)] := by
      unfold natDigits
      simp only [natDigitsAux]
      rw [if_neg h10]
      have hq : (m + 1) / 10 < 10 := by omega
      rw [if_pos hq]
      rfl
    simp only [prefixChars, hds, List.length_cons, List.length_singleton]
    rw [if_neg (by norm_num)]
    rfl

/-- Unfolded form of the row-label construction. -/
theorem generateRowLabel_def (rowIndex columns : Nat) :
    generateRowLabel rowIndex columns =
      Option.bind (bufWrite (fillLoop 63 (prefixChars rowIndex).length
          ((columns : Int) - ((prefixChars rowIndex).length : Int))
          (bufSet (writeChars (fun _ => none) 0 ((prefixChars rowIndex).take 63))
            ((prefixChars rowIndex).take 63).length (Char.ofNat 0)) 0)
        columns (Char.ofNat 0)) (fun b => readCStr b 64 0) := rfl

/-- Master characterization of the row-label construction when the requested
column count fits the 64-byte buffer: the returned C string is the formatted
prefix truncated at `columns`, extended with filler characters to length
`columns`. -/
theorem generateRowLabel_eq (rowIndex columns : Nat) (h63 : columns ≤ 63) :
    generateRowLabel rowIndex columns =
      some ((prefixChars rowIndex).take columns ++
        fillerList (columns - (prefixChars rowIndex).length)) := by
  have hL4 := prefixChars_length_ge rowIndex
  rw [generateRowLabel_def]
  set p := prefixChars rowIndex with hp
  set t := p.take 63 with ht
  set L := p.length with hLdef
  set rem : Int := (columns : Int) - (L : Int) with hrem
  set b1 := bufSet (writeChars (fun _ => none) 0 t) t.length (Char.ofNat 0) with hb1
  set filled := fillLoop 63 L rem b1 0 with hfilled
  set final := bufSet filled columns (Char.ofNat 0) with hfinal
  have hbw : bufWrite filled columns (Char.ofNat 0) = some final := by
    rw [hfinal]
    unfold bufWrite
    rw [if_pos (by omega)]
  rw [hbw]
  show readCStr final 64 0 = _
  set l := p.take columns ++ fillerList (columns - L) with hl
  have hLt : t.length = 63 ⊓ L := by
    rw [ht, hLdef]
    exact List.length_take 63 p
  have hlen : l.length = columns := by
    rw [hl]
    simp only [List.length_append, List.length_take, fillerList, List.length_map,
      List.length_range]
    omega
  have hstop : min rem.toNat (63 - L) = columns - L := by
    rw [hrem]
    omega
  have hfill : ∀ j, filled j =
      if L ≤ j ∧ j < L + (columns - L) then some (fillerChar (j - L)) else b1 j := by
    intro j
    rw [hfilled, fillLoop_apply L rem 63 0 b1 j (by omega), hstop]
    simp only [Nat.add_zero]
  have hb1val : ∀ k, k < 63 ⊓ L → b1 k = p[k]? := by
    intro k hk
    rw [hb1]
    simp only [bufSet]
    rw [if_neg (by omega : ¬ k = t.length)]
    rw [writeChars_apply t (fun _ => none) 0 k]
    rw [if_pos (by omega)]
    rw [ht, List.getElem?_take]
    simp only [Nat.sub_zero]
    rw [if_pos (by omega)]
  apply readCStr_eq
  · intro k hk
    rw [hlen] at hk
    show final (0 + k) = l[k]?
    rw [hfinal]
    simp only [bufSet, Nat.zero_add]
    rw [if_neg (by omega : ¬ k = columns)]
    by_cases hkL : k < L
    · rw [hfill k, if_neg (by omega)]
      rw [hb1val k (by omega)]
      rw [hl, List.getElem?_append]
      rw [if_pos (by simp only [List.length_take]; omega)]
      rw [List.getElem?_take, if_pos (by omega)]
    · rw [hfill k, if_pos (by omega)]
      rw [hl, List.getElem?_append_right (by simp only [List.length_take]; omega)]
      simp only [List.length_take]
      have hmin : columns ⊓ L = L := by omega
      rw [hmin]
      simp only [fillerList]
      rw [List.getElem?_map, List.getElem?_range (by omega)]
      rfl
  · intro c hc
    rw [hl] at hc
    rcases List.mem_append.mp hc with h | h
    · exact prefixChars_ne_null rowIndex c (by rw [hp] at h; exact List.mem_of_mem_take h)
    · simp only [fillerList, List.mem_map] at h
      obtain ⟨i, hi, rfl⟩ := h
      exact fillerChar_ne_null i
  · show final (0 + l.length) = some (Char.ofNat 0)
    rw [hlen]
    simp [hfinal, bufSet]
  · rw [hlen]
    omega

/-! ## Claims about the row-label construction -/

/-- Counterexample to claim C3: at columns = 64 the terminator write
`buffer[64] = 0` is outside the 64-byte buffer, so the construction does not
return a (clamped) string of length min(64, 63) = 63 — it has no defined
result at all. -/
theorem c3_length_counterexample :
    generateRowLabel 0 64 = none ∧
    (generateRowLabel 0 64).map List.length ≠ some (min 64 63) := by decide

/-- Claim C3 as amended: for every rowIndex and every columns that fits the
backing buffer (columns ≤ 63 = maxBufferLength - 1), the label is a defined
string of length exactly min(columns, maxBufferLength - 1) = columns,
including the edge case columns < prefix length where the prefix itself is
cut short; for columns ≥ 64 the terminator write is out of bounds and no
string is returned. -/
theorem c3_label_length (rowIndex columns : Nat) (h63 : columns ≤ 63) :
    ∃ s, generateRowLabel rowIndex columns = some s ∧ s.length = min columns 63 := by
  refine ⟨_, generateRowLabel_eq rowIndex columns h63, ?_⟩
  have h4 := prefixChars_length_ge rowIndex
  simp only [List.length_append, List.length_take, fillerList, List.length_map,
    List.length_range]
  omega

/-- Witness for the amended C3 at rowIndex 5, columns 2 (prefix cut short to
exactly 2 characters). -/
theorem c3_label_length_witness :
    2 ≤ 63 ∧ ∃ s, generateRowLabel 5 2 = some s ∧ s.length = min 2 63 :=
  ⟨by decide, c3_label_length 5 2 (by decide)⟩

/-- Counterexample to claim C4: at rowIndex 5 (in [0,99]) and columns 70
(≥ prefix length) the construction does not produce the prefix followed by
filler characters up to length 70 — the terminator write `buffer[70] = 0` is
out of bounds and the result is undefined. -/
theorem c4_content_counterexample :
    generateRowLabel 5 70 = none ∧
    generateRowLabel 5 70 ≠
      some (('R' :: digitChar 0 :: digitChar 5 :: [':']) ++
        (List.range 66).map fillerChar) := by decide

/-- Claim C4 as amended: for rowIndex in [0,99] and prefix length 4 ≤ columns
≤ 63 (the buffer bound forced by the out-of-bounds terminator write at
columns ≥ 64), the label is exactly the prefix R, zero-padded two-digit row
index and colon, followed by filler characters 'A' + (i % 26) for i from 0
until the total length reaches columns. -/
theorem c4_label_content (rowIndex columns : Nat)
    (h99 : rowIndex ≤ 99) (hp4 : 4 ≤ columns) (h63 : columns ≤ 63) :
    generateRowLabel rowIndex columns =
      some (('R' :: digitChar (rowIndex / 10) :: digitChar (rowIndex % 10) :: [':']) ++
        (List.range (columns - 4)).map fillerChar) := by
  rw [generateRowLabel_eq rowIndex columns h63, prefixChars_eq_of_le_99 rowIndex h99]
  have hfin : (['R', digitChar (rowIndex / 10), digitChar (rowIndex % 10), ':']
      : List Char).length = 4 := rfl
  rw [List.take_of_length_le (by rw [hfin]; omega), hfin]
  rfl

/-- Witness for the amended C4 at rowIndex 5, columns 12. -/
theorem c4_label_content_witness :
    5 ≤ 99 ∧ 4 ≤ 12 ∧ 12 ≤ 63 ∧
    generateRowLabel 5 12 =
      some (('R' :: digitChar (5 / 10) :: digitChar (5 % 10) :: [':']) ++
        (List.range (12 - 4)).map fillerChar) :=
  ⟨by decide, by decide, by decide,
   c4_label_content 5 12 (by decide) (by decide) (by decide)⟩

/-- Counterexample to claim C5: the label for rowIndex 5, columns 12 is not
"R05:AAAAAAAA" — the filler is 'A' + (i % 26), which advances through the
alphabet instead of repeating 'A'. -/
theorem c5_filler_counterexample :
    generateRowLabel 5 12 ≠
      some ['R', '0', '5', ':', 'A', 'A', 'A', 'A', 'A', 'A', 'A', 'A'] := by decide

/-- Claim C5 as amended: the label for rowIndex 5 and columns 12 is the
12-character string "R05:ABCDEFGH" — the 4-character prefix "R05:" followed
by the 8 filler characters 'A' + (i % 26) for i = 0..7. -/
theorem c5_concrete_label :
    generateRowLabel 5 12 =
      some ['R', '0', '5', ':', 'A', 'B', 'C', 'D', 'E', 'F', 'G', 'H'] := by decide

/-- Counterexample to claim C7: the label generation is not total on
well-typed inputs — at rowIndex 7, columns 100 the terminator write is out of
bounds and no result is returned. -/
theorem c7_failure_counterexample : generateRowLabel 7 100 = none := by decide

/-- Claim C7 as amended: for scale ≥ 1 the grid computation cannot fail —
its divisors 6*scale and 8*scale are strictly positive, so no division by
zero occurs, and a SafeZoneGrid result is always returned; the label
generation always returns a string provided columns ≤ 63 (for columns ≥ 64
its terminator write is out of bounds). -/
theorem c7_total_on_safe_inputs (widthPx heightPx margin textSize : Int)
    (rowIndex columns : Nat) (hs : 1 ≤ textSize) (h63 : columns ≤ 63) :
    0 < actualCharWidth textSize ∧ 0 < actualCharHeight textSize ∧
    computeGrid widthPx heightPx margin textSize =
      { columns := Int.tdiv (safeWidthOf widthPx margin) (actualCharWidth textSize),
        rows := Int.tdiv (safeHeightOf heightPx margin) (actualCharHeight textSize) } ∧
    (generateRowLabel rowIndex columns).isSome = true := by
  refine ⟨?_, ?_, rfl, ?_⟩
  · unfold actualCharWidth; linarith
  · unfold actualCharHeight; linarith
  · rw [generateRowLabel_eq rowIndex columns h63]; rfl

/-- Witness for the amended C7 at geometry (172,320), margin 10, scale 2,
label input (5,12). -/
theorem c7_total_on_safe_inputs_witness :
    ((1 : Int) ≤ 2 ∧ 12 ≤ 63) ∧
    (0 < actualCharWidth 2 ∧ 0 < actualCharHeight 2 ∧
    computeGrid 172 320 10 2 =
      { columns := Int.tdiv (safeWidthOf 172 10) (actualCharWidth 2),
        rows := Int.tdiv (safeHeightOf 320 10) (actualCharHeight 2) } ∧
    (generateRowLabel 5 12).isSome = true) :=
  ⟨⟨by decide, by decide⟩,
   c7_total_on_safe_inputs 172 320 10 2 5 12 (by decide) (by decide)⟩

/-- Claim C9: under the preconditions rowIndex in [0,99] and
0 ≤ charsPerRow ≤ 63 every buffer access of the label construction is in
bounds — the bounds-checked embedding completes with a defined string — and
for the program's fixed constants (172x320 display, margin 10, textSize ≥ 1)
the precondition always holds since charsPerRow ≤ 25. -/
theorem c9_writes_in_bounds (rowIndex columns : Nat) (textSize : Int)
    (h99 : rowIndex ≤ 99) (h63 : columns ≤ 63) (ht : 1 ≤ textSize) :
    (generateRowLabel rowIndex columns).isSome = true ∧
    (computeGrid 172 320 10 textSize).columns ≤ 25 := by
  constructor
  · rw [generateRowLabel_eq rowIndex columns h63]; rfl
  · have hc : (computeGrid 172 320 10 textSize).columns
        = Int.tdiv 152 (6 * textSize) := rfl
    rw [hc, Int.tdiv_eq_ediv (by norm_num) (by linarith)]
    have h2 : 152 / (6 * textSize) * (6 * textSize) ≤ 152 :=
      Int.ediv_mul_le 152 (by linarith : (0 : Int) < 6 * textSize).ne'
    by_contra hq
    push_neg at hq
    have h3 : (26 : Int) ≤ 152 / (6 * textSize) := by
      have := Int.lt_iff_add_one_le.mp hq
      linarith
    have h4 : (26 : Int) * (6 * textSize) ≤ 152 / (6 * textSize) * (6 * textSize) :=
      mul_le_mul_of_nonneg_right h3 (by linarith)
    linarith

/-- Witness for C9 at rowIndex 5, columns 25, textSize 2. -/
theorem c9_writes_in_bounds_witness :
    (5 ≤ 99 ∧ 25 ≤ 63 ∧ (1 : Int) ≤ 2) ∧
    ((generateRowLabel 5 25).isSome = true ∧ (computeGrid 172 320 10 2).columns ≤ 25) :=
  ⟨⟨by decide, by decide, by decide⟩,
   c9_writes_in_bounds 5 25 2 (by decide) (by decide) (by decide)⟩
